import Mathlib

/-!
Verification of the email-tui core against its specification.

The definitions below are shallow embeddings of the Rust sources:
- imap/src/body.rs   (BODYSTRUCTURE parser and text-part lookup)
- imap/src/inbox.rs  (LIST-line mailbox parser)
- imap/src/message.rs (Contact / address-list parsing)
- imap/src/lib.rs    (IMAP session operations, modelled as the first
                      protocol action they take given the session state)
- smtp/src/lib.rs    (SMTP reply-code checking)
- gui/src/message_collection.rs (paginated lazy message cache)

Strings are modelled at character level (Lean List Char / String);
the Rust readers index by character position.
-/

/-! ## Data model: MIME body-part tree (imap/src/body.rs) -/

structure FileMeta where
  file_type : String
  name : String
deriving DecidableEq

inductive BodyStructure where
  | Plain : BodyStructure
  | Html : BodyStructure
  | Image : FileMeta → BodyStructure
  | Application : FileMeta → BodyStructure
  | Mixed : List BodyStructure → String → BodyStructure
  | Related : List BodyStructure → String → BodyStructure
  | Alternative : List BodyStructure → String → BodyStructure

/-! ## The character reader (StrReader in body.rs)

The Rust StrReader is a string with a cursor; we represent a reader
position by the list of remaining characters.  `consume n` is List.drop
(which clamps like the Rust `min` does), `peek` is head?, `read` is
uncons. -/

/-- act_on_slice with a starts_with callback: does the remaining input
begin with the given pattern? -/
def beginsWith (p : String) (r : List Char) : Bool :=
  p.data.isPrefixOf r

/-- Inner loop of StrReader::get_quoted, entered after the opening quote
has been consumed.  Returns the quoted content and the remainder after
the closing quote.  Mirrors the Rust loop: a backslash whose peek is a
quote keeps scanning (the escaped quote stays in the content); any
character whose peek is a quote terminates, consuming the quote. -/
def get_quoted_go : List Char → Option (List Char × List Char)
  | [] => none
  | '\\' :: '"' :: rest =>
    match rest with
    | '"' :: rest2 => some (['\\', '"'], rest2)
    | _ => (get_quoted_go rest).map (fun p => ('\\' :: '"' :: p.1, p.2))
  | c :: '"' :: rest => some ([c], rest)
  | c :: rest => (get_quoted_go rest).map (fun p => (c :: p.1, p.2))

/-- StrReader::get_quoted: expects an opening quote, returns the content
up to the closing quote and the remainder after it. -/
def get_quoted : List Char → Option (List Char × List Char)
  | '"' :: rest => get_quoted_go rest
  | _ => none

/-- StrReader::consume_until_end_paren: scans with a parenthesis depth
counter and quote awareness; returns the remainder after the
parenthesis that closes depth 0 (the Rust p_count reaching -1), or none
if the input ends first. -/
def consume_until_end_paren : List Char → Nat → Bool → Option (List Char)
  | [], _, _ => none
  | '\\' :: '"' :: rest2, p, true => consume_until_end_paren rest2 p true
  | _ :: '"' :: rest2, p, true => consume_until_end_paren rest2 p false
  | _ :: rest, p, true => consume_until_end_paren rest p true
  | c :: rest, p, false =>
    if c = '(' then consume_until_end_paren rest (p + 1) false
    else if c = ')' then
      (if p = 0 then some rest else consume_until_end_paren rest (p - 1) false)
    else if c = '"' then consume_until_end_paren rest p true
    else consume_until_end_paren rest p false

/-! ## BodyStructure parsing (impl FromStr for BodyStructure) -/

/-- Drop the input through the first occurrence of an opening
parenthesis, or report none when there is no parenthesis. -/
def splitOnceParen : List Char → Option (List Char)
  | [] => none
  | '(' :: rest => some rest
  | _ :: rest => splitOnceParen rest

/-- The last piece of Rust splitn(n+1, left-paren): drop the input
through at most n opening parentheses, stopping early when none are
left. -/
def lastPieceSplitn : Nat → List Char → List Char
  | 0, s => s
  | n + 1, s =>
    match splitOnceParen s with
    | none => s
    | some rest => lastPieceSplitn n rest

/-- BodyStructure::parse_t.  Operates directly on the reader (the only
specialized reader that commits its progress): returns the parse result
together with the updated reader position. -/
def BodyStructure.parse_t (r : List Char) : Option BodyStructure × List Char :=
  let is_plain := beginsWith "EXT\" \"PLAIN\"" r
  let is_html := beginsWith "EXT\" \"HTML\"" r
  if ¬is_plain ∧ ¬is_html then (none, r)
  else
    let r4 := r.drop 4
    match consume_until_end_paren r4 0 false with
    | none => (none, r4)
    | some r' => (some (if is_html then .Html else .Plain), r')

/-- BodyStructure::parse_i.  Works on a clone of the reader that is
never written back, so the caller's reader is unchanged in every case;
only the parse result is returned. -/
def BodyStructure.parse_i (r : List Char) : Option BodyStructure :=
  if ¬beginsWith "MAGE\" \"" r then none
  else
    match get_quoted (r.drop 6) with
    | none => none
    | some (file_type, c2) =>
      if ¬beginsWith " (\"NAME\" \"" c2 then none
      else
        match get_quoted (c2.drop 9) with
        | none => none
        | some (name, c3) =>
          match consume_until_end_paren c3 0 false with
          | none => none
          | some _ => some (.Image ⟨String.mk file_type, String.mk name⟩)

/-- BodyStructure::find_boundray: scan to an opening parenthesis, then
require a literal BOUNDARY key and return its quoted value. -/
def BodyStructure.find_boundray : List Char → Option (List Char)
  | [] => none
  | '(' :: rest =>
    if beginsWith "\"BOUNDARY\" \"" rest then (get_quoted (rest.drop 11)).map (·.1)
    else none
  | _ :: rest => BodyStructure.find_boundray rest

/-- BodyStructure::parse_a: either a multipart ALTERNATIVE header (with
a mandatory BOUNDARY parameter) or an APPLICATION leaf.  Clone-only:
the caller's reader is unchanged. -/
def BodyStructure.parse_a (r : List Char) : Option BodyStructure :=
  if beginsWith "LTERNATIVE\"" r then
    (BodyStructure.find_boundray (r.drop 11)).map (fun b => .Alternative [] (String.mk b))
  else if ¬beginsWith "PPLICATION\" \"" r then none
  else
    match get_quoted (r.drop 12) with
    | none => none
    | some (file_type, c2) =>
      if ¬beginsWith " (\"NAME\") \"" c2 then none
      else
        match get_quoted (c2.drop 11) with
        | none => none
        | some (name, c3) =>
          match consume_until_end_paren c3 0 false with
          | none => none
          | some _ => some (.Application ⟨String.mk file_type, String.mk name⟩)

/-- BodyStructure::parse_r: multipart RELATED header. Clone-only. -/
def BodyStructure.parse_r (r : List Char) : Option BodyStructure :=
  if ¬beginsWith "ELATED\"" r then none
  else (BodyStructure.find_boundray (r.drop 7)).map (fun b => .Related [] (String.mk b))

/-- BodyStructure::parse_m: multipart MIXED header. Clone-only. -/
def BodyStructure.parse_m (r : List Char) : Option BodyStructure :=
  if ¬beginsWith "IXED\"" r then none
  else (BodyStructure.find_boundray (r.drop 5)).map (fun b => .Mixed [] (String.mk b))

/-- One result-handling step of the from_str main loop: a multipart
result pops the most recent sibling marker and moves the parts produced
since it into the node's children; a leaf result is appended; no result
leaves the flat list alone.  none signals the missing-marker failure. -/
def BodyStructure.stepResult (res : Option BodyStructure)
    (v : List BodyStructure) (splits : List Nat) :
    Option (List BodyStructure × List Nat) :=
  match res with
  | none => some (v, splits)
  | some (.Alternative _ b) =>
    match splits with
    | [] => none
    | ls :: splits' => some (v.take ls ++ [.Alternative (v.drop ls) b], splits')
  | some (.Mixed _ b) =>
    match splits with
    | [] => none
    | ls :: splits' => some (v.take ls ++ [.Mixed (v.drop ls) b], splits')
  | some (.Related _ b) =>
    match splits with
    | [] => none
    | ls :: splits' => some (v.take ls ++ [.Related (v.drop ls) b], splits')
  | some leaf => some (v ++ [leaf], splits)

/-- The from_str main scan.  Reads one character at a time; two
consecutive opening parentheses push a sibling marker; a recognized
type-leading character attempts the matching specialized reader (only
parse_t advances the reader).  Fuel bounds the iteration count; one
unit per character read suffices since every step consumes at least one
character. -/
def BodyStructure.mainLoop : Nat → List Char → List BodyStructure → List Nat →
    Option (List BodyStructure)
  | 0, _, _, _ => none
  | _ + 1, [], v, _ => some v
  | fuel + 1, '(' :: '(' :: rest, v, splits =>
    BodyStructure.mainLoop fuel ('(' :: rest) v (v.length :: splits)
  | fuel + 1, 'T' :: rest, v, splits =>
    let pr := BodyStructure.parse_t rest
    match BodyStructure.stepResult pr.1 v splits with
    | none => none
    | some (v', s') => BodyStructure.mainLoop fuel pr.2 v' s'
  | fuel + 1, 'I' :: rest, v, splits =>
    match BodyStructure.stepResult (BodyStructure.parse_i rest) v splits with
    | none => none
    | some (v', s') => BodyStructure.mainLoop fuel rest v' s'
  | fuel + 1, 'A' :: rest, v, splits =>
    match BodyStructure.stepResult (BodyStructure.parse_a rest) v splits with
    | none => none
    | some (v', s') => BodyStructure.mainLoop fuel rest v' s'
  | fuel + 1, 'R' :: rest, v, splits =>
    match BodyStructure.stepResult (BodyStructure.parse_r rest) v splits with
    | none => none
    | some (v', s') => BodyStructure.mainLoop fuel rest v' s'
  | fuel + 1, 'M' :: rest, v, splits =>
    match BodyStructure.stepResult (BodyStructure.parse_m rest) v splits with
    | none => none
    | some (v', s') => BodyStructure.mainLoop fuel rest v' s'
  | fuel + 1, _ :: rest, v, splits => BodyStructure.mainLoop fuel rest v splits

/-- BodyStructure::from_str: drop the reply text through its second
opening parenthesis (Rust splitn(3, paren).last()), run the main scan,
and succeed only when exactly one node remains. -/
def BodyStructure.fromStr (s : List Char) : Option BodyStructure :=
  let cmd := lastPieceSplitn 2 s
  match BodyStructure.mainLoop (cmd.length + 1) cmd [] [0] with
  | none => none
  | some [x] => some x
  | some _ => none

/-! ## Text-part lookup (BodyStructure::find_text / find_text_dfs) -/

mutual

/-- BodyStructure::find_text_dfs: depth-first, left-to-right search for
the first PlainText leaf, carrying the 1-based section path built so
far.  A Plain leaf reached with an empty path (the root itself) reports
path [1]. -/
def BodyStructure.find_text_dfs : BodyStructure → List Nat → List Nat × Bool
  | .Plain, path => (if path.isEmpty then [1] else path, true)
  | .Html, path => (path, false)
  | .Image _, path => (path, false)
  | .Application _, path => (path, false)
  | .Mixed arr _, path => BodyStructure.find_text_children arr path 1
  | .Related arr _, path => BodyStructure.find_text_children arr path 1
  | .Alternative arr _, path => BodyStructure.find_text_children arr path 1

/-- The loop inside find_text_dfs over a multipart's children: visit
each child with the path extended by its 1-based index; return the
first success, or the unextended path with failure. -/
def BodyStructure.find_text_children : List BodyStructure → List Nat → Nat → List Nat × Bool
  | [], path, _ => (path, false)
  | el :: rest, path, i =>
    match BodyStructure.find_text_dfs el (path ++ [i]) with
    | (p, true) => (p, true)
    | (_, false) => BodyStructure.find_text_children rest path (i + 1)

end

/-- BodyStructure::find_text: run the depth-first search from an empty
path and render the result as a dot-separated section path. -/
def BodyStructure.find_text (t : BodyStructure) : Option String :=
  let pf := BodyStructure.find_text_dfs t []
  if pf.2 then some (String.intercalate "." (pf.1.map (fun x => toString x)))
  else none

mutual

/-- Modelled from the spec's words on text-part lookup: the 1-based
index path of the first PlainText leaf in depth-first, left-to-right
order (the root itself having the empty path), or none when the tree
contains no PlainText leaf.  Used to state the refinement claim about
find_text. -/
def firstPlainPath : BodyStructure → Option (List Nat)
  | .Plain => some []
  | .Html => none
  | .Image _ => none
  | .Application _ => none
  | .Mixed arr _ => firstPlainPathChildren arr 1
  | .Related arr _ => firstPlainPathChildren arr 1
  | .Alternative arr _ => firstPlainPathChildren arr 1

/-- Children scan for firstPlainPath, numbering children from i. -/
def firstPlainPathChildren : List BodyStructure → Nat → Option (List Nat)
  | [], _ => none
  | el :: rest, i =>
    match firstPlainPath el with
    | some p => some (i :: p)
    | none => firstPlainPathChildren rest (i + 1)

end

/-- Modelled from the spec's words: the rendering of a section path,
with the root-is-the-single-PlainText-leaf case defined as "1". -/
def renderSectionPath (p : List Nat) : String :=
  if p = [] then "1" else String.intercalate "." (p.map (fun x => toString x))

mutual

/-- Does the tree contain a PlainText leaf anywhere? -/
def hasPlainLeaf : BodyStructure → Bool
  | .Plain => true
  | .Html => false
  | .Image _ => false
  | .Application _ => false
  | .Mixed arr _ => hasPlainLeafChildren arr
  | .Related arr _ => hasPlainLeafChildren arr
  | .Alternative arr _ => hasPlainLeafChildren arr

/-- Does any tree in the list contain a PlainText leaf? -/
def hasPlainLeafChildren : List BodyStructure → Bool
  | [] => false
  | el :: rest => hasPlainLeaf el || hasPlainLeafChildren rest

end

/-! ## Mailbox LIST-line parser (imap/src/inbox.rs, Inbox::from_str) -/

structure Inbox where
  name : String
  selectable : Bool
  has_children : Bool
deriving DecidableEq

/-- Rust str::split on a single separator character, keeping empty
pieces (the semantics of split(" "), split(',') and split(a quote) used
by the parsers). -/
def splitOnChar (sep : Char) : List Char → List (List Char)
  | [] => [[]]
  | c :: rest =>
    if c = sep then [] :: splitOnChar sep rest
    else
      match splitOnChar sep rest with
      | h :: t => (c :: h) :: t
      | [] => [[c]]

/-- Strip a leading opening parenthesis and a trailing closing
parenthesis from a flag token, as the map inside Inbox::from_str
does. -/
def stripFlagToken (w : List Char) : List Char :=
  let w := if w.head? = some '(' then w.tail else w
  if w.getLast? = some ')' then w.dropLast else w

/-- The body of the flag fold inside Inbox::from_str: a Noselect flag
clears the first component, a HasNoChildren flag the second, anything
else changes nothing. -/
def flagStep (p : Bool × Bool) (flag : List Char) : Bool × Bool :=
  if flag = "\\Noselect".data then (false, p.2)
  else if flag = "\\HasNoChildren".data then (p.1, false)
  else p

/-- Inbox::from_str: split the line on single spaces, skip the first
two tokens, read flag tokens while they end in a closing parenthesis,
strip the parentheses, and fold over the flags (both attributes default
to true).  The name is the second-to-last piece of the line split on
double quotes; with fewer than two pieces the parse fails. -/
def Inbox.fromStr (s : List Char) : Option Inbox :=
  let flags := (((splitOnChar ' ' s).drop 2).takeWhile
    (fun t => t.getLast? = some ')')).map stripFlagToken
  let sh := flags.foldl flagStep (true, true)
  match (splitOnChar '"' s).reverse with
  | _ :: name :: _ => some { name := String.mk name, selectable := sh.1, has_children := sh.2 }
  | _ => none

/-! ## IMAP session operations (imap/src/lib.rs)

Each operation is modelled by the first protocol action it takes given
the selected-mailbox component of the session state: either it fails
locally before touching the transport, or it sends a command line. -/

inductive ImapAction where
  | fails : ImapAction
  | sends : String → ImapAction
deriving DecidableEq

/-- IMap::get_inbox_count: bails when no mailbox is selected, otherwise
sends the STATUS command built from the selected name. -/
def getInboxCountAction (selected_inbox : Option Inbox) : ImapAction :=
  match selected_inbox with
  | none => .fails
  | some x => .sends ("? STATUS " ++ x.name ++ " (MESSAGES)")

/-- The FETCH command get_n_email_headers sends for an already rendered
range lhs:rhs. -/
def fetchHeadersCmd (lhs rhs : String) : String :=
  "? FETCH " ++ lhs ++ ":" ++ rhs ++ " (FLAGS BODY.PEEK[HEADER.FIELDS (SUBJECT FROM TO CC BCC)])"

/-- IMap::get_n_email_headers: sends its FETCH command without
consulting the selected-mailbox state. -/
def getNEmailHeadersAction (_selected_inbox : Option Inbox) (lhs rhs : String) : ImapAction :=
  .sends (fetchHeadersCmd lhs rhs)

/-- IMap::get_body_structure: sends its FETCH command without
consulting the selected-mailbox state. -/
def getBodyStructureAction (_selected_inbox : Option Inbox) (id : Nat) : ImapAction :=
  .sends ("? FETCH " ++ toString id ++ " (BODYSTRUCTURE)")

/-- IMap::read_email: its first step is get_body_structure, so its
first action is that operation's FETCH, again independent of the
selected-mailbox state. -/
def readEmailAction (selected_inbox : Option Inbox) (id : Nat) : ImapAction :=
  getBodyStructureAction selected_inbox id

/-- IMap::select_inbox, as (result, new selected mailbox, commands
written to the transport).  The serverOk flag abstracts whether
execute_cmd succeeds; on a server failure the error propagates before
the selection is recorded. -/
def select_inbox (selected_inbox : Option Inbox) (inbox : Inbox) (serverOk : Bool) :
    Except String Unit × Option Inbox × List String :=
  if ¬inbox.selectable then (.error "Error: Inbox not selectable", selected_inbox, [])
  else
    let cmd := "? SELECT \"" ++ inbox.name ++ "\""
    if serverOk then (.ok (), some inbox, [cmd])
    else (.error "CMD FAILED", selected_inbox, [cmd])

/-! ## SMTP reply checking (smtp/src/lib.rs) -/

/-- Rust u32::from_str: an optional leading plus sign, then at least
one ASCII digit and nothing else, with the value below 2^32. -/
def parseU32 (s : List Char) : Option Nat :=
  let digits := if s.head? = some '+' then s.tail else s
  if digits ≠ [] ∧ digits.all Char.isDigit then
    let v := digits.foldl (fun a c => a * 10 + (c.toNat - '0'.toNat)) 0
    if v < 2 ^ 32 then some v else none
  else none

/-- The reply code SMTP::check_response extracts from one line: the
first space-delimited token that parses as a u32. -/
def firstNumToken (line : List Char) : Option Nat :=
  (splitOnChar ' ' line).findSome? parseU32

/-- The read loop of SMTP::check_response: scan response lines until
one yields a numeric token.  none models the loop never finding a code
(the code would keep reading). -/
def checkResponseNum : List (List Char) → Option Nat
  | [] => none
  | l :: rest =>
    match firstNumToken l with
    | some n => some n
    | none => checkResponseNum rest

/-- SMTP::check_response: ok when the extracted code equals the
expected one, an error carrying the actual code otherwise. -/
def check_response (expected : Nat) (lines : List (List Char)) : Option (Except Nat Unit) :=
  (checkResponseNum lines).map (fun n => if n = expected then .ok () else .error n)

/-- SMTP::connect after the TLS handshake: checks the greeting against
reply code 220 and writes nothing to the stream (the second component
is the list of commands connect sends, which is empty in the source). -/
def smtpConnect (greeting : List (List Char)) : Option (Except Nat Unit) × List String :=
  (check_response 220 greeting, [])

/-! ## Contact / address-list parsing (imap/src/message.rs) -/

structure Contact where
  name : Option String
  email : String
deriving DecidableEq

/-- Rust str::split_once at the first occurrence of a left angle
bracket: the text before it and the text after it. -/
def splitOnceLt : List Char → Option (List Char × List Char)
  | [] => none
  | c :: rest =>
    if c = '<' then some ([], rest)
    else (splitOnceLt rest).map (fun p => (c :: p.1, p.2))

/-- Contact::from_str.  The source always returns Ok; the one aborting
path is the byte slice email[0..email.len()-1] on the text after the
first bracket.  Rust's len() counts bytes, so the slice panics
(modelled none) when that text is empty — the index underflows — or
when its final character is multi-byte — byte position len()-1 then
falls inside that character and is not a char boundary.  When the
final character is a single byte, removing the last byte removes
exactly that character. -/
def Contact.fromStr (s : List Char) : Option Contact :=
  match splitOnceLt s with
  | some (name, email) =>
    match email.getLast? with
    | none => none
    | some c =>
      if c.utf8Size = 1 then
        some { name := some (String.mk name), email := String.mk email.dropLast }
      else none
  | none => some { name := none, email := String.mk s }

/-- The To/Cc/Bcc collection in Message::from_str: split on commas,
parse each entry and collect; a panic in any entry aborts the whole
parse (none), otherwise every entry yields a Contact. -/
def parseContactList (s : List Char) : Option (List Contact) :=
  (splitOnChar ',' s).mapM Contact.fromStr

/-! ## Paginated message cache (gui/src/message_collection.rs)

Headers are modelled by their sequence numbers (the id field of the
parsed Message), which is the component the ordering invariant speaks
about. -/

structure MessageCollection where
  messages : List Nat
  page_size : Nat
  current_page : Nat
deriving DecidableEq

/-- Modelled from the spec: the server's reply to the header fetch for
the batch below lastLoaded — the headers of the requested contiguous
range lastLoaded-20 .. lastLoaded-1, in ascending sequence order (the
claims' stated assumption on the server). -/
def serverBatch (lastLoaded : Nat) : List Nat :=
  List.range' (lastLoaded - 20) 20

/-- The lazy-fetch step inside MessageCollection::get_current_page:
read the last cached id (or the mailbox count when the cache is
empty), fetch the next older batch, reverse it and append. -/
def lazyFetch (inboxCount : Nat) (msgs : List Nat) : List Nat :=
  let lastLoaded := msgs.getLast?.getD inboxCount
  msgs ++ (serverBatch lastLoaded).reverse

/-- The cache contents after k successful lazy batch fetches starting
from an empty cache, against a mailbox of inboxCount messages. -/
def cacheAfter (inboxCount : Nat) : Nat → List Nat
  | 0 => []
  | k + 1 => lazyFetch inboxCount (cacheAfter inboxCount k)

/-- MessageCollection::get_current_page: slice the cache when it
already covers the page range; otherwise run one lazy fetch and check
the assertion range.end <= messages.len().  Returns the page slice,
the updated collection and whether a fetch happened; none models the
assertion failing (a panic). -/
def getCurrentPage (inboxCount : Nat) (mc : MessageCollection) :
    Option (List Nat × MessageCollection × Bool) :=
  let start := mc.current_page * mc.page_size
  let stop := start + mc.page_size
  if stop ≤ mc.messages.length then
    some ((mc.messages.drop start).take mc.page_size, mc, false)
  else
    let msgs' := lazyFetch inboxCount mc.messages
    if stop ≤ msgs'.length then
      some ((msgs'.drop start).take mc.page_size, { mc with messages := msgs' }, true)
    else none

/-! ## Claim theorems -/

set_option maxRecDepth 20000

/-- C1: parsing the raw BODYSTRUCTURE reply of a multipart/alternative
message wrapping a text/plain part and a multipart/related part (which
wraps text/html, image/png, image/png) yields an Alternative root with
exactly two children in input order — PlainText first, then a Related
node with three children in original order (HtmlText then the two
Image leaves with their NAME parameters) — and each multipart's
boundary equals, character for character, the quoted BOUNDARY value in
the input. -/
theorem claim_C1_bodystructure_roundtrip :
    BodyStructure.fromStr ("* 123123 FETCH (BODYSTRUCTURE ((\"TEXT\" \"PLAIN\" (\"CHARSET\" \"utf-8\") NIL NIL \"QUOTED-PRINTABLE\" 495 10 NIL NIL NIL)((\"TEXT\" \"HTML\" (\"CHARSET\" \"utf-8\") NIL NIL \"QUOTED-PRINTABLE\" 6328 127 NIL NIL NIL)(\"IMAGE\" \"PNG\" (\"NAME\" \"og-image.png\" \"X-UNIX-MODE\" \"0666\") \"<34A362DC-C052-41DA-B3C2-C6782B912403>\" NIL \"BASE64\" 68590 NIL (\"INLINE\" (\"FILENAME\" \"og-image.png\")) NIL)(\"IMAGE\" \"PNG\" (\"NAME\" \"1*jtOTreOJuxO8FtLYyU9Uyw.png\" \"X-UNIX-MODE\" \"0666\") \"<E80B1254-3757-4EB9-AC92-C2E2EC312001>\" NIL \"BASE64\" 180504 NIL (\"INLINE\" (\"FILENAME\" \"1*jtOTreOJuxO8FtLYyU9Uyw.png\")) NIL) \"RELATED\" (\"BOUNDARY\" \"Apple-Mail=_A6722D8A-5BBB-478B-8940-7B14BCE39030\" \"TYPE\" \"text/html\") NIL NIL) \"ALTERNATIVE\" (\"BOUNDARY\" \"Apple-Mail=_D5EF70C3-5230-4B9A-A34D-20255319DA45\") NIL NIL))\n").data =
    some (.Alternative
      [.Plain,
       .Related
         [.Html,
          .Image { file_type := "PNG", name := "og-image.png" },
          .Image { file_type := "PNG", name := "1*jtOTreOJuxO8FtLYyU9Uyw.png" }]
         "Apple-Mail=_A6722D8A-5BBB-478B-8940-7B14BCE39030"]
      "Apple-Mail=_D5EF70C3-5230-4B9A-A34D-20255319DA45") := by
  rfl

/-- C4: the lazy fetch appends a batch of exactly 20 headers no matter
what the configured page size or cache contents are, and with the
application's page size of 40 the very first page request fails the
range.end <= messages.len() assertion (the call panics) because one
batch cannot cover the page. -/
theorem claim_C4_underfetch_panic :
    (∀ inboxCount msgs, (lazyFetch inboxCount msgs).length = msgs.length + 20) ∧
    (∀ inboxCount, getCurrentPage inboxCount ⟨[], 40, 0⟩ = none) := by
  constructor
  · intro inboxCount msgs
    simp [lazyFetch, serverBatch]
  · intro inboxCount
    simp [getCurrentPage, lazyFetch, serverBatch]

/-- C6 counterexample: with no mailbox selected, get_n_email_headers
does not fail — it sends its FETCH command — contradicting the claim
that every fetch operation fails when selected_mailbox is None. -/
theorem claim_C6_counterexample :
    getNEmailHeadersAction none "1" "20" ≠ ImapAction.fails ∧
    getNEmailHeadersAction none "1" "20" = ImapAction.sends (fetchHeadersCmd "1" "20") := by
  exact ⟨by simp [getNEmailHeadersAction], rfl⟩

/-- C6 amended: only mailbox_message_count (get_inbox_count) requires a
selected mailbox — it fails locally when none is selected and sends
STATUS for the selected name otherwise; fetch_headers,
fetch_body_structure and read_email_text send their FETCH command
regardless of the selected-mailbox state. -/
theorem claim_C6_amended :
    getInboxCountAction none = ImapAction.fails ∧
    (∀ inbox : Inbox, getInboxCountAction (some inbox) =
      ImapAction.sends ("? STATUS " ++ inbox.name ++ " (MESSAGES)")) ∧
    (∀ sel lhs rhs, getNEmailHeadersAction sel lhs rhs =
      ImapAction.sends (fetchHeadersCmd lhs rhs)) ∧
    (∀ sel id, getBodyStructureAction sel id =
      ImapAction.sends ("? FETCH " ++ toString id ++ " (BODYSTRUCTURE)")) ∧
    (∀ sel id, readEmailAction sel id = getBodyStructureAction sel id) :=
  ⟨rfl, fun _ => rfl, fun _ _ _ => rfl, fun _ _ => rfl, fun _ _ => rfl⟩

/-- C7 counterexample: a LIST line whose parenthesized list holds two
flags.  The flag scan stops at the first token (no trailing closing
parenthesis), so neither backslash-Noselect nor backslash-HasNoChildren
takes effect the way the claim demands: selectable and has_children
both stay true. -/
theorem claim_C7_counterexample :
    Inbox.fromStr "* LIST (\\Noselect \\HasNoChildren) \"/\" \"Trash\"".data =
      some { name := "Trash", selectable := true, has_children := true } ∧
    Inbox.fromStr "* LIST (\\Noselect \\HasNoChildren) \"/\" \"Trash\"".data ≠
      some { name := "Trash", selectable := false, has_children := false } := by
  exact ⟨rfl, by decide⟩

/-- Splitting at a separator-free piece followed by the separator
peels off that piece. -/
theorem splitOnChar_append_sep (sep : Char) (a rest : List Char) (h : sep ∉ a) :
    splitOnChar sep (a ++ sep :: rest) = a :: splitOnChar sep rest := by
  induction a with
  | nil => simp [splitOnChar]
  | cons c as ih =>
    have hc : ¬(c = sep) := fun e => h (e ▸ List.mem_cons_self c as)
    have has : sep ∉ as := fun m => h (List.mem_cons_of_mem c m)
    simp only [List.cons_append, splitOnChar, if_neg hc, List.append_eq, ih has]

/-- Every LIST line with one parenthesized flag token: the flag is
applied over the true/true defaults — Noselect clears selectable,
HasNoChildren clears has_children, anything else leaves both — and the
quoted name is extracted. -/
theorem inbox_single_flag_line (flag delim name : List Char)
    (hfs : ' ' ∉ flag) (hfq : '"' ∉ flag)
    (hds : ' ' ∉ delim) (hdq : '"' ∉ delim) (hnq : '"' ∉ name) :
    Inbox.fromStr ('*' :: ' ' :: 'L' :: 'I' :: 'S' :: 'T' :: ' ' :: '(' ::
        (flag ++ ')' :: ' ' :: '"' :: (delim ++ '"' :: ' ' :: '"' :: (name ++ ['"'])))) =
      some { name := String.mk name,
             selectable := if flag = "\\Noselect".data then false else true,
             has_children := if flag = "\\HasNoChildren".data then false else true } := by
  have hT3 : (('(' :: (flag ++ [')'])) : List Char).getLast? = some ')' :=
    List.getLast?_concat ('(' :: flag)
  have hT4 : (('"' :: (delim ++ ['"'])) : List Char).getLast? = some '"' :=
    List.getLast?_concat ('"' :: delim)
  have htok : splitOnChar ' ' ('*' :: ' ' :: 'L' :: 'I' :: 'S' :: 'T' :: ' ' :: '(' ::
        (flag ++ ')' :: ' ' :: '"' :: (delim ++ '"' :: ' ' :: '"' :: (name ++ ['"'])))) =
      ['*'] :: ['L', 'I', 'S', 'T'] :: ('(' :: (flag ++ [')'])) :: ('"' :: (delim ++ ['"'])) ::
        splitOnChar ' ' ('"' :: (name ++ ['"'])) := by
    have e1 : ('*' :: ' ' :: 'L' :: 'I' :: 'S' :: 'T' :: ' ' :: '(' ::
        (flag ++ ')' :: ' ' :: '"' :: (delim ++ '"' :: ' ' :: '"' :: (name ++ ['"'])))) =
        ['*'] ++ ' ' :: (['L', 'I', 'S', 'T'] ++ ' ' :: (('(' :: (flag ++ [')'])) ++ ' ' ::
          (('"' :: (delim ++ ['"'])) ++ ' ' :: ('"' :: (name ++ ['"']))))) := by
      simp
    rw [e1, splitOnChar_append_sep _ _ _ (by decide),
        splitOnChar_append_sep _ _ _ (by decide),
        splitOnChar_append_sep _ _ _ (by simp [hfs]),
        splitOnChar_append_sep _ _ _ (by simp [hds])]
  have hname : splitOnChar '"' ('*' :: ' ' :: 'L' :: 'I' :: 'S' :: 'T' :: ' ' :: '(' ::
        (flag ++ ')' :: ' ' :: '"' :: (delim ++ '"' :: ' ' :: '"' :: (name ++ ['"'])))) =
      ('*' :: ' ' :: 'L' :: 'I' :: 'S' :: 'T' :: ' ' :: '(' :: (flag ++ [')', ' '])) ::
        delim :: [' '] :: name :: [[]] := by
    have e2 : ('*' :: ' ' :: 'L' :: 'I' :: 'S' :: 'T' :: ' ' :: '(' ::
        (flag ++ ')' :: ' ' :: '"' :: (delim ++ '"' :: ' ' :: '"' :: (name ++ ['"'])))) =
        ('*' :: ' ' :: 'L' :: 'I' :: 'S' :: 'T' :: ' ' :: '(' :: (flag ++ [')', ' '])) ++ '"' ::
          (delim ++ '"' :: ([' '] ++ '"' :: (name ++ '"' :: []))) := by
      simp
    rw [e2, splitOnChar_append_sep _ _ _ (by simp [hfq]),
        splitOnChar_append_sep _ _ _ hdq,
        splitOnChar_append_sep _ _ _ (by decide),
        splitOnChar_append_sep _ _ _ hnq]
    rfl
  rw [Inbox.fromStr, htok, hname]
  simp only [List.drop_succ_cons, List.drop_zero, List.takeWhile_cons, hT3, hT4]
  simp only [stripFlagToken, List.reverse_cons]
  simp only [decide_eq_true_eq]
  norm_num [stripFlagToken, List.getLast?_concat, List.dropLast_concat]
  simp only [show ('"' = ')') = False from by simp, if_false, List.map_nil, List.foldl_nil]
  by_cases hN : flag = "\\Noselect".data
  · subst hN; simp [flagStep]
  · by_cases hH : flag = "\\HasNoChildren".data
    · subst hH; simp [flagStep]
    · simp [flagStep, hN, hH]

/-- Every LIST line whose parenthesized list holds two or more
space-separated flags: the first flag token lacks the trailing closing
parenthesis, the scan stops there, no flag is processed, and both
attributes keep their true defaults. -/
theorem inbox_multi_flag_line (f1 fs delim name : List Char)
    (hf1s : ' ' ∉ f1) (hf1p : f1.getLast? ≠ some ')') (hf1q : '"' ∉ f1)
    (hfsq : '"' ∉ fs) (hdq : '"' ∉ delim) (hnq : '"' ∉ name) :
    Inbox.fromStr ('*' :: ' ' :: 'L' :: 'I' :: 'S' :: 'T' :: ' ' :: '(' ::
        (f1 ++ ' ' :: (fs ++ ')' :: ' ' :: '"' ::
          (delim ++ '"' :: ' ' :: '"' :: (name ++ ['"']))))) =
      some { name := String.mk name, selectable := true, has_children := true } := by
  have hT3 : ¬((('(' :: f1) : List Char).getLast? = some ')') := by
    cases f1 with
    | nil => decide
    | cons b l => rw [List.getLast?_cons_cons]; exact hf1p
  have htok : splitOnChar ' ' ('*' :: ' ' :: 'L' :: 'I' :: 'S' :: 'T' :: ' ' :: '(' ::
        (f1 ++ ' ' :: (fs ++ ')' :: ' ' :: '"' ::
          (delim ++ '"' :: ' ' :: '"' :: (name ++ ['"']))))) =
      ['*'] :: ['L', 'I', 'S', 'T'] :: ('(' :: f1) ::
        splitOnChar ' ' (fs ++ ')' :: ' ' :: '"' ::
          (delim ++ '"' :: ' ' :: '"' :: (name ++ ['"']))) := by
    have e1 : ('*' :: ' ' :: 'L' :: 'I' :: 'S' :: 'T' :: ' ' :: '(' ::
        (f1 ++ ' ' :: (fs ++ ')' :: ' ' :: '"' ::
          (delim ++ '"' :: ' ' :: '"' :: (name ++ ['"']))))) =
        ['*'] ++ ' ' :: (['L', 'I', 'S', 'T'] ++ ' ' :: (('(' :: f1) ++ ' ' ::
          (fs ++ ')' :: ' ' :: '"' :: (delim ++ '"' :: ' ' :: '"' :: (name ++ ['"']))))) := by
      simp
    rw [e1, splitOnChar_append_sep _ _ _ (by decide),
        splitOnChar_append_sep _ _ _ (by decide),
        splitOnChar_append_sep _ _ _ (by simp [hf1s])]
  have hname : splitOnChar '"' ('*' :: ' ' :: 'L' :: 'I' :: 'S' :: 'T' :: ' ' :: '(' ::
        (f1 ++ ' ' :: (fs ++ ')' :: ' ' :: '"' ::
          (delim ++ '"' :: ' ' :: '"' :: (name ++ ['"']))))) =
      ('*' :: ' ' :: 'L' :: 'I' :: 'S' :: 'T' :: ' ' :: '(' ::
        (f1 ++ ' ' :: (fs ++ [')', ' ']))) :: delim :: [' '] :: name :: [[]] := by
    have e2 : ('*' :: ' ' :: 'L' :: 'I' :: 'S' :: 'T' :: ' ' :: '(' ::
        (f1 ++ ' ' :: (fs ++ ')' :: ' ' :: '"' ::
          (delim ++ '"' :: ' ' :: '"' :: (name ++ ['"']))))) =
        ('*' :: ' ' :: 'L' :: 'I' :: 'S' :: 'T' :: ' ' :: '(' ::
          (f1 ++ ' ' :: (fs ++ [')', ' ']))) ++ '"' ::
          (delim ++ '"' :: ([' '] ++ '"' :: (name ++ '"' :: []))) := by
      simp
    rw [e2, splitOnChar_append_sep _ _ _ (by simp [hf1q, hfsq]),
        splitOnChar_append_sep _ _ _ hdq,
        splitOnChar_append_sep _ _ _ (by decide),
        splitOnChar_append_sep _ _ _ hnq]
    rfl
  rw [Inbox.fromStr, htok, hname]
  simp only [List.drop_succ_cons, List.drop_zero, List.takeWhile_cons, hT3]
  simp

/-- C7 amended: mailbox parsing defaults selectable and has_children
to true and processes only the leading run of space-delimited flag
tokens ending in a closing parenthesis.  For every LIST line with a
single parenthesized flag, that flag is applied
(backslash-Noselect clears selectable, backslash-HasNoChildren clears
has_children, anything else leaves both true); for every line whose
parenthesized list holds two or more space-separated flags, the scan
stops at the first token — which lacks the trailing parenthesis — so
no flag is processed and both attributes stay true.  The given input
parses to name "Deleted Messages" with selectable true and
has_children false. -/
theorem claim_C7_amended :
    (∀ flag delim name : List Char,
      ' ' ∉ flag → '"' ∉ flag → ' ' ∉ delim → '"' ∉ delim → '"' ∉ name →
      Inbox.fromStr ('*' :: ' ' :: 'L' :: 'I' :: 'S' :: 'T' :: ' ' :: '(' ::
          (flag ++ ')' :: ' ' :: '"' :: (delim ++ '"' :: ' ' :: '"' :: (name ++ ['"'])))) =
        some { name := String.mk name,
               selectable := if flag = "\\Noselect".data then false else true,
               has_children := if flag = "\\HasNoChildren".data then false else true }) ∧
    (∀ f1 fs delim name : List Char,
      ' ' ∉ f1 → f1.getLast? ≠ some ')' → '"' ∉ f1 → '"' ∉ fs → '"' ∉ delim → '"' ∉ name →
      Inbox.fromStr ('*' :: ' ' :: 'L' :: 'I' :: 'S' :: 'T' :: ' ' :: '(' ::
          (f1 ++ ' ' :: (fs ++ ')' :: ' ' :: '"' ::
            (delim ++ '"' :: ' ' :: '"' :: (name ++ ['"']))))) =
        some { name := String.mk name, selectable := true, has_children := true }) ∧
    Inbox.fromStr "* LIST (\\HasNoChildren) \"/\" \"Deleted Messages\"".data =
      some { name := "Deleted Messages", selectable := true, has_children := false } :=
  ⟨inbox_single_flag_line, inbox_multi_flag_line, rfl⟩

/-- C7 witness: the amended universals applied to a concrete
single-Noselect line and a concrete two-flag line. -/
theorem claim_C7_witness :
    (Inbox.fromStr ('*' :: ' ' :: 'L' :: 'I' :: 'S' :: 'T' :: ' ' :: '(' ::
        ("\\Noselect".data ++ ')' :: ' ' :: '"' ::
          ("/".data ++ '"' :: ' ' :: '"' :: ("X".data ++ ['"'])))) =
      some { name := "X", selectable := false, has_children := true }) ∧
    (Inbox.fromStr ('*' :: ' ' :: 'L' :: 'I' :: 'S' :: 'T' :: ' ' :: '(' ::
        ("\\Noselect".data ++ ' ' :: ("\\HasNoChildren".data ++ ')' :: ' ' :: '"' ::
          ("/".data ++ '"' :: ' ' :: '"' :: ("Trash".data ++ ['"']))))) =
      some { name := "Trash", selectable := true, has_children := true }) :=
  ⟨claim_C7_amended.1 "\\Noselect".data "/".data "X".data
    (by decide) (by decide) (by decide) (by decide) (by decide),
   claim_C7_amended.2.1 "\\Noselect".data "\\HasNoChildren".data "/".data "Trash".data
    (by decide) (by decide) (by decide) (by decide) (by decide) (by decide)⟩

/-- C8: check_response reads the reply code as the first
space-delimited numeric token of the response and fails with the
actual code on any mismatch with the expected code; in particular a
greeting whose code is not 220 makes connect fail with that code while
connect writes no commands at all to the stream. -/
theorem claim_C8_smtp_reply (expected : Nat) (lines : List (List Char)) (n : Nat)
    (hn : checkResponseNum lines = some n) (hne : n ≠ expected) :
    check_response expected lines = some (.error n) ∧
    (n ≠ 220 → smtpConnect lines = (some (.error n), [])) := by
  constructor
  · simp [check_response, hn, hne]
  · intro h220
    simp [smtpConnect, check_response, hn, h220]

/-- C8 witness: the greeting "421 busy" yields code 421, mismatching
220, so connect fails with 421 and sends nothing. -/
theorem claim_C8_witness :
    checkResponseNum ["421 busy".data] = some 421 ∧ (421 : Nat) ≠ 220 ∧
    (check_response 220 ["421 busy".data] = some (.error 421) ∧
     ((421 : Nat) ≠ 220 → smtpConnect ["421 busy".data] = (some (.error 421), []))) :=
  ⟨rfl, by decide, claim_C8_smtp_reply 220 ["421 busy".data] 421 rfl (by decide)⟩

/-- C9: selecting a non-selectable mailbox fails locally — nothing is
written to the transport and the current selection is untouched —
while selecting a selectable mailbox sends exactly the quoted SELECT
command and, when the server accepts, records that mailbox as the
current selection. -/
theorem claim_C9_select (sel : Option Inbox) (inbox : Inbox) (serverOk : Bool) :
    (inbox.selectable = false →
      select_inbox sel inbox serverOk = (.error "Error: Inbox not selectable", sel, [])) ∧
    (inbox.selectable = true →
      (select_inbox sel inbox serverOk).2.2 = ["? SELECT \"" ++ inbox.name ++ "\""] ∧
      (serverOk = true →
        select_inbox sel inbox serverOk = (.ok (), some inbox, ["? SELECT \"" ++ inbox.name ++ "\""]))) := by
  constructor
  · intro hns
    simp [select_inbox, hns]
  · intro hs
    constructor
    · cases serverOk <;> simp [select_inbox, hs]
    · intro hok
      simp [select_inbox, hs, hok]

/-- C9 witness: a concrete non-selectable mailbox is rejected locally
with no command sent, and a concrete selectable one is selected. -/
theorem claim_C9_witness :
    (select_inbox none ⟨"[Gmail]", false, true⟩ true =
      (.error "Error: Inbox not selectable", none, []) ∧
     select_inbox none ⟨"INBOX", true, false⟩ true =
      (.ok (), some ⟨"INBOX", true, false⟩, ["? SELECT \"INBOX\""])) :=
  ⟨(claim_C9_select none ⟨"[Gmail]", false, true⟩ true).1 rfl,
   ((claim_C9_select none ⟨"INBOX", true, false⟩ true).2 rfl).2 rfl⟩

/-! ### Helper lemmas for the text-part lookup claims -/

/-- A child scan success always reports a path headed by a child
index. -/
theorem fppc_ne_nil : ∀ (l : List BodyStructure) (i : Nat) (p : List Nat),
    firstPlainPathChildren l i = some p → p ≠ [] := by
  intro l
  induction l with
  | nil => intro i p h; simp [firstPlainPathChildren] at h
  | cons el rest ih =>
    intro i p h
    rw [firstPlainPathChildren] at h
    cases hel : firstPlainPath el with
    | some q =>
      rw [hel] at h
      simp only [Option.some.injEq] at h
      subst h; simp
    | none =>
      rw [hel] at h
      exact ih (i + 1) p h

/-- The search of find_text_dfs computes the spec-side first-plain
path: it extends the carried path by that path on success (with the
root-Plain special case producing [1]) and returns the carried path
with failure otherwise.  Stated for all sizes at once to recurse
through the nested tree/list structure. -/
theorem dfs_spec_aux : ∀ n : Nat,
    (∀ t : BodyStructure, sizeOf t ≤ n → ∀ path,
      BodyStructure.find_text_dfs t path =
        (match firstPlainPath t with
        | some p => (if path = [] ∧ p = [] then [1] else path ++ p, true)
        | none => (path, false))) ∧
    (∀ l : List BodyStructure, sizeOf l ≤ n → ∀ path i,
      BodyStructure.find_text_children l path i =
        (match firstPlainPathChildren l i with
        | some p => (path ++ p, true)
        | none => (path, false))) := by
  intro n
  induction n with
  | zero =>
    constructor
    · intro t ht; cases t <;> simp at ht
    · intro l hl; cases l <;> simp at hl
  | succ n ih =>
    constructor
    · intro t ht path
      cases t with
      | Plain => cases path <;> simp [BodyStructure.find_text_dfs, firstPlainPath]
      | Html => simp [BodyStructure.find_text_dfs, firstPlainPath]
      | Image m => simp [BodyStructure.find_text_dfs, firstPlainPath]
      | Application m => simp [BodyStructure.find_text_dfs, firstPlainPath]
      | Mixed arr b =>
        have harr : sizeOf arr ≤ n := by
          have := ht; simp at this; omega
        rw [BodyStructure.find_text_dfs, firstPlainPath, ih.2 arr harr path 1]
        cases hfp : firstPlainPathChildren arr 1 with
        | some p =>
          have hne := fppc_ne_nil arr 1 p hfp
          simp [hne]
        | none => simp
      | Related arr b =>
        have harr : sizeOf arr ≤ n := by
          have := ht; simp at this; omega
        rw [BodyStructure.find_text_dfs, firstPlainPath, ih.2 arr harr path 1]
        cases hfp : firstPlainPathChildren arr 1 with
        | some p =>
          have hne := fppc_ne_nil arr 1 p hfp
          simp [hne]
        | none => simp
      | Alternative arr b =>
        have harr : sizeOf arr ≤ n := by
          have := ht; simp at this; omega
        rw [BodyStructure.find_text_dfs, firstPlainPath, ih.2 arr harr path 1]
        cases hfp : firstPlainPathChildren arr 1 with
        | some p =>
          have hne := fppc_ne_nil arr 1 p hfp
          simp [hne]
        | none => simp
    · intro l hl path i
      cases l with
      | nil => simp [BodyStructure.find_text_children, firstPlainPathChildren]
      | cons el rest =>
        have hel : sizeOf el ≤ n := by
          have := hl; simp at this; omega
        have hrest : sizeOf rest ≤ n := by
          have := hl; simp at this; omega
        rw [BodyStructure.find_text_children, firstPlainPathChildren,
            ih.1 el hel (path ++ [i])]
        cases hfp : firstPlainPath el with
        | some q =>
          have hpn : ¬(path ++ [i] = [] ∧ q = []) := by simp
          simp only [hpn, if_false]
          simp
        | none =>
          simp only []
          rw [ih.2 rest hrest path (i + 1)]

/-- find_text is the spec-side first-plain path rendered as a section
path. -/
theorem find_text_eq (t : BodyStructure) :
    BodyStructure.find_text t = (firstPlainPath t).map renderSectionPath := by
  have hS := (dfs_spec_aux (sizeOf t)).1 t le_rfl []
  rw [BodyStructure.find_text, hS]
  cases hfp : firstPlainPath t with
  | none => simp
  | some p =>
    by_cases hp : p = []
    · subst hp
      simp [renderSectionPath]
      rfl
    · simp [hp, renderSectionPath]

/-- The first-plain path is absent exactly when the tree has no
PlainText leaf. -/
theorem hasPlain_aux : ∀ n : Nat,
    (∀ t : BodyStructure, sizeOf t ≤ n →
      (firstPlainPath t = none ↔ hasPlainLeaf t = false)) ∧
    (∀ l : List BodyStructure, sizeOf l ≤ n → ∀ i,
      (firstPlainPathChildren l i = none ↔ hasPlainLeafChildren l = false)) := by
  intro n
  induction n with
  | zero =>
    constructor
    · intro t ht; cases t <;> simp at ht
    · intro l hl; cases l <;> simp at hl
  | succ n ih =>
    constructor
    · intro t ht
      cases t with
      | Plain => simp [firstPlainPath, hasPlainLeaf]
      | Html => simp [firstPlainPath, hasPlainLeaf]
      | Image m => simp [firstPlainPath, hasPlainLeaf]
      | Application m => simp [firstPlainPath, hasPlainLeaf]
      | Mixed arr b =>
        have harr : sizeOf arr ≤ n := by have := ht; simp at this; omega
        rw [firstPlainPath, hasPlainLeaf]
        exact (ih.2 arr harr 1)
      | Related arr b =>
        have harr : sizeOf arr ≤ n := by have := ht; simp at this; omega
        rw [firstPlainPath, hasPlainLeaf]
        exact (ih.2 arr harr 1)
      | Alternative arr b =>
        have harr : sizeOf arr ≤ n := by have := ht; simp at this; omega
        rw [firstPlainPath, hasPlainLeaf]
        exact (ih.2 arr harr 1)
    · intro l hl i
      cases l with
      | nil => simp [firstPlainPathChildren, hasPlainLeafChildren]
      | cons el rest =>
        have hel : sizeOf el ≤ n := by have := hl; simp at this; omega
        have hrest : sizeOf rest ≤ n := by have := hl; simp at this; omega
        rw [firstPlainPathChildren, hasPlainLeafChildren]
        cases hfp : firstPlainPath el with
        | some q =>
          simp only []
          constructor
          · intro h; simp at h
          · intro h
            simp only [Bool.or_eq_false_iff] at h
            have := (ih.1 el hel).mpr h.1
            rw [this] at hfp; cases hfp
        | none =>
          simp only []
          rw [ih.2 rest hrest (i + 1)]
          have h1 : hasPlainLeaf el = false := (ih.1 el hel).mp hfp
          simp [h1]

/-- C2: find_text is exactly the depth-first, left-to-right
first-PlainText-leaf lookup with 1-based child indexing — it returns
the rendered dot-separated spec path of that leaf (HtmlText, Image and
Application being dead ends by construction of that path), the root
PlainText leaf gets path "1", and a tree with no PlainText leaf yields
no path, the case read_email turns into its NoTextPart failure. -/
theorem claim_C2_find_text (t : BodyStructure) :
    BodyStructure.find_text t = (firstPlainPath t).map renderSectionPath ∧
    (hasPlainLeaf t = false → BodyStructure.find_text t = none) ∧
    BodyStructure.find_text BodyStructure.Plain = some "1" := by
  refine ⟨find_text_eq t, ?_, ?_⟩
  · intro h
    rw [find_text_eq t, ((hasPlain_aux (sizeOf t)).1 t le_rfl).mpr h]
    rfl
  · rw [find_text_eq BodyStructure.Plain]
    rfl

/-- C2 witness: an HTML-and-image-only tree has no text part, so the
lookup returns no path. -/
theorem claim_C2_witness :
    BodyStructure.find_text
      (BodyStructure.Alternative
        [BodyStructure.Html, BodyStructure.Image ⟨"PNG", "a.png"⟩] "b") = none :=
  (claim_C2_find_text _).2.1 (by simp [hasPlainLeaf, hasPlainLeafChildren])

/-! ### Helper lemmas for the message-cache claims -/

/-- Ascending-by-one chain over a contiguous range. -/
theorem chain'_flip_range' (s n : Nat) :
    List.Chain' (fun a b => b = a + 1) (List.range' s n) := by
  induction n generalizing s with
  | zero => simp
  | succ n ih =>
    rw [List.range'_succ]
    cases n with
    | zero => simp
    | succ m =>
      rw [List.range'_succ]
      refine List.chain'_cons.mpr ⟨rfl, ?_⟩
      rw [← List.range'_succ]
      exact ih (s + 1)

/-- Head of a step-one contiguous range. -/
theorem head?_range'_one (s n : Nat) :
    (List.range' s n).head? = if n = 0 then none else some s := by
  cases n <;> simp [List.range'_succ]

/-- Closed form of the cache after k successful batch fetches: the
contiguous descending block of the 20k sequence numbers directly below
the mailbox count. -/
theorem cacheAfter_closed (N : Nat) : ∀ k, 20 * k ≤ N →
    cacheAfter N k = (List.range' (N - 20 * k) (20 * k)).reverse := by
  intro k
  induction k with
  | zero => intro _; simp [cacheAfter]
  | succ k ih =>
    intro h
    have hk : 20 * k ≤ N := by omega
    simp only [cacheAfter, lazyFetch, serverBatch, ih hk, List.getLast?_reverse]
    cases k with
    | zero => norm_num
    | succ j =>
      rw [head?_range'_one, if_neg (by omega)]
      simp only [Option.getD_some]
      rw [← List.reverse_append]
      congr 1
      have happ := List.range'_append (N - 20 * (j + 1 + 1)) 20 (20 * (j + 1)) 1
      simp only [one_mul] at happ
      rw [show N - 20 * (j + 1 + 1) + 20 = N - 20 * (j + 1) from by omega] at happ
      rw [show N - 20 * (j + 1) - 20 = N - 20 * (j + 1 + 1) from by omega]
      rw [show (20 : Nat) * (j + 1 + 1) = 20 * (j + 1) + 20 from by ring]
      exact happ

/-- Each fetch only appends: the previous cache is a prefix. -/
theorem cache_prefix_succ (N j : Nat) : cacheAfter N j <+: cacheAfter N (j + 1) := by
  simp only [cacheAfter, lazyFetch]
  exact List.prefix_append _ _

/-- C3: after any number k of successful lazy batch fetches (each batch
returned ascending over its requested contiguous range, per the
serverBatch model), the cached header sequence is strictly descending
by exactly one at each step — no gaps — and every earlier cache state
is a prefix of every later one, so nothing is removed or reordered. -/
theorem claim_C3_pagination_invariant (N k : Nat) (h : 20 * k ≤ N) :
    List.Chain' (fun a b => a = b + 1) (cacheAfter N k) ∧
    (∀ j, j ≤ k → cacheAfter N j <+: cacheAfter N k) := by
  constructor
  · rw [cacheAfter_closed N k h, List.chain'_reverse]
    exact chain'_flip_range' _ _
  · intro j hj
    induction k with
    | zero =>
      have hj0 : j = 0 := by omega
      subst hj0; exact List.prefix_refl _
    | succ k ihk =>
      rcases Nat.lt_or_ge j (k + 1) with hlt | hge
      · have hjk : j ≤ k := by omega
        have h20 : 20 * k ≤ N := by omega
        exact (ihk h20 hjk).trans (cache_prefix_succ N k)
      · have hje : j = k + 1 := by omega
        subst hje; exact List.prefix_refl _

/-- C3 witness: two batches against a 40-message mailbox. -/
theorem claim_C3_witness :
    20 * 2 ≤ 40 ∧
    (List.Chain' (fun a b => a = b + 1) (cacheAfter 40 2) ∧
     (∀ j, j ≤ 2 → cacheAfter 40 j <+: cacheAfter 40 2)) :=
  ⟨by decide, claim_C3_pagination_invariant 40 2 (by decide)⟩

/-- C5: a successful get_current_page leaves the cache covering the
page range, so an immediate second call with the same page settings
takes the pure cache-slice path: it returns the identical page
content, the identical collection state, and performs no fetch. -/
theorem claim_C5_idempotent (inboxCount : Nat) (mc : MessageCollection)
    (page : List Nat) (mc' : MessageCollection) (fetched : Bool)
    (h : getCurrentPage inboxCount mc = some (page, mc', fetched)) :
    getCurrentPage inboxCount mc' = some (page, mc', false) := by
  unfold getCurrentPage at h ⊢
  by_cases h1 : mc.current_page * mc.page_size + mc.page_size ≤ mc.messages.length
  · simp only [h1, if_true, Option.some.injEq, Prod.mk.injEq] at h
    obtain ⟨hp, hmc, hf⟩ := h
    subst hmc
    simp [h1, hp]
  · simp only [h1, if_false] at h
    by_cases h2 : mc.current_page * mc.page_size + mc.page_size ≤
        (lazyFetch inboxCount mc.messages).length
    · simp only [h2, if_true, Option.some.injEq, Prod.mk.injEq] at h
      obtain ⟨hp, hmc, hf⟩ := h
      subst hmc
      simp [h2, hp]
    · simp [h2] at h

/-- C5 witness: a first call from an empty cache with page size 20
succeeds with one fetch; the repeated call returns the same page with
no fetch. -/
theorem claim_C5_witness :
    getCurrentPage 100 ⟨(List.range' 80 20).reverse, 20, 0⟩ =
      some ((List.range' 80 20).reverse, ⟨(List.range' 80 20).reverse, 20, 0⟩, false) :=
  claim_C5_idempotent 100 ⟨[], 20, 0⟩ ((List.range' 80 20).reverse)
    ⟨(List.range' 80 20).reverse, 20, 0⟩ true (by rfl)

/-! ### Helper lemmas for the contact-parsing claim -/

/-- split_once finds nothing exactly when the bracket is absent. -/
theorem splitOnceLt_eq_none {s : List Char} : splitOnceLt s = none ↔ '<' ∉ s := by
  induction s with
  | nil => simp [splitOnceLt]
  | cons c rest ih =>
    by_cases hc : c = '<'
    · subst hc; simp [splitOnceLt]
    · have hc' : ¬('<' = c) := fun h => hc h.symm
      simp [splitOnceLt, hc, hc', ih, Option.map_eq_none']

/-- split_once splits at the first bracket: the prefix is
bracket-free and the input is prefix, bracket, suffix. -/
theorem splitOnceLt_eq_some : ∀ {s pre post : List Char},
    splitOnceLt s = some (pre, post) → s = pre ++ '<' :: post ∧ '<' ∉ pre := by
  intro s
  induction s with
  | nil => intro pre post h; simp [splitOnceLt] at h
  | cons c rest ih =>
    intro pre post h
    by_cases hc : c = '<'
    · subst hc
      simp only [splitOnceLt, if_pos rfl, Option.some.injEq, Prod.mk.injEq] at h
      rcases h with ⟨rfl, rfl⟩
      simp
    · simp only [splitOnceLt, if_neg hc, Option.map_eq_some'] at h
      obtain ⟨⟨p1, p2⟩, hp, heq⟩ := h
      simp only [Prod.mk.injEq] at heq
      obtain ⟨h1, h2⟩ := heq
      subst h2
      obtain ⟨hs, hmem⟩ := ih hp
      subst hs
      constructor
      · rw [← h1]; simp
      · rw [← h1]
        intro hmm
        rcases List.mem_cons.mp hmm with h | h
        · exact hc h.symm
        · exact hmem h

/-- A failed address-list collection can only come from a panicking
entry. -/
theorem mapM_contact_none : ∀ {l : List (List Char)},
    l.mapM Contact.fromStr = none → ∃ e ∈ l, Contact.fromStr e = none := by
  intro l
  induction l with
  | nil =>
    intro h
    rw [show ([] : List (List Char)).mapM Contact.fromStr = some [] from rfl] at h
    cases h
  | cons a t ih =>
    intro h
    rw [List.mapM_cons] at h
    cases ha : Contact.fromStr a with
    | none => exact ⟨a, List.mem_cons_self a t, ha⟩
    | some b =>
      rw [ha] at h
      simp only [Option.bind_eq_bind, Option.some_bind] at h
      cases ht : t.mapM Contact.fromStr with
      | none =>
        obtain ⟨e, he, hne⟩ := ih ht
        exact ⟨e, List.mem_cons_of_mem a he, hne⟩
      | some bs => rw [ht] at h; simp at h

/-- C10 counterexample: the input whose text after the first bracket
ends in a two-byte character.  Rust's byte slice email[0..len()-1]
panics on the non-boundary index, so parsing aborts (none) although
the first bracket is not the input's final character — refuting the
claim that the trailing-bracket input is the only failure mode. -/
theorem claim_C10_counterexample :
    Contact.fromStr "a<bé".data = none ∧
    splitOnceLt "a<bé".data = some ("a".data, "bé".data) ∧
    "a<bé".data.getLast? ≠ some '<' := by
  refine ⟨rfl, rfl, by decide⟩

/-- C10 amended: contact parsing never returns an error value — with
no bracket the whole input is a bare email without a name; with a
bracket whose remainder is nonempty and ends in a single-byte
character, the text before the first bracket becomes the name and the
remainder minus its final character the email — so an address-list
entry can never be cleanly unparsable (a To/Cc/Bcc field failure can
only be a panic), and the panic happens exactly when the remainder
after the first bracket is empty (slice index underflow) or ends in a
multi-byte character (byte len-1 is not a char boundary). -/
theorem claim_C10_contact (s : List Char) :
    (Contact.fromStr s = none ↔
      (∃ pre post, splitOnceLt s = some (pre, post) ∧
        (post = [] ∨ ∃ c, post.getLast? = some c ∧ c.utf8Size ≠ 1))) ∧
    ('<' ∉ s → Contact.fromStr s = some ⟨none, String.mk s⟩) ∧
    (∀ pre post c, splitOnceLt s = some (pre, post) → post.getLast? = some c →
      c.utf8Size = 1 →
      Contact.fromStr s = some ⟨some (String.mk pre), String.mk post.dropLast⟩) ∧
    (parseContactList s = none → ∃ e ∈ splitOnChar ',' s, Contact.fromStr e = none) := by
  refine ⟨?_, ?_, ?_, ?_⟩
  · cases hsp : splitOnceLt s with
    | none => simp [Contact.fromStr, hsp]
    | some pp =>
      obtain ⟨pre, post⟩ := pp
      cases hgl : post.getLast? with
      | none =>
        have hpost : post = [] := List.getLast?_eq_none_iff.mp hgl
        subst hpost
        simp only [Contact.fromStr, hsp]
        constructor
        · intro _
          exact ⟨pre, [], rfl, Or.inl rfl⟩
        · intro _; trivial
      | some c =>
        have hpost : post ≠ [] := by
          intro he; subst he; simp at hgl
        by_cases hu : c.utf8Size = 1
        · simp only [Contact.fromStr, hsp, hgl, hu, if_true]
          constructor
          · intro h; cases h
          · rintro ⟨pre', post', hsp', hdis⟩
            injection hsp' with hpp
            injection hpp with hp1 hp2
            subst hp1; subst hp2
            rcases hdis with h0 | ⟨c', hc', hu'⟩
            · exact absurd h0 hpost
            · rw [hgl] at hc'
              injection hc' with hcc
              subst hcc
              exact (hu' hu).elim
        · simp only [Contact.fromStr, hsp, hgl, hu, if_false]
          constructor
          · intro _
            exact ⟨pre, post, rfl, Or.inr ⟨c, hgl, hu⟩⟩
          · intro _; trivial
  · intro hni
    have hsp : splitOnceLt s = none := splitOnceLt_eq_none.mpr hni
    simp [Contact.fromStr, hsp]
  · intro pre post c hsp hgl hu
    simp [Contact.fromStr, hsp, hgl, hu]
  · intro h
    exact mapM_contact_none h

/-- C10 witness: a bare email, a named address with an ASCII-final
remainder, and the panicking trailing-bracket input. -/
theorem claim_C10_witness :
    (Contact.fromStr "a@b.com".data = some ⟨none, "a@b.com"⟩) ∧
    (Contact.fromStr "Bob <b@x>".data = some ⟨some "Bob ", "b@x"⟩) ∧
    (Contact.fromStr "broken<".data = none) :=
  ⟨(claim_C10_contact "a@b.com".data).2.1 (by decide),
   (claim_C10_contact "Bob <b@x>".data).2.2.1 "Bob ".data "b@x>".data '>' rfl rfl (by decide),
   (claim_C10_contact "broken<".data).1.mpr ⟨"broken".data, [], rfl, Or.inl rfl⟩⟩
